import Mathlib

/-!
Shallow embedding of `src/extern/xcommunication/messageextractor.cpp`
(`MessageExtractor::processNewData`, `MessageExtractor::clearBuffer`) from the
robotology/xsensmt-yarp-driver repository.

Modelling conventions:
* Bytes are `Nat`; the buffer (`XsByteArray` / the sliding-window member
  `m_buffer`) is a `List Nat`.  Byte values never influence the extractor's
  control flow, only the locator's answers do.
* The protocol manager (`IProtocolManager`, an external collaborator whose
  implementation is not part of this repository) is an abstract record of
  functions: `findMessage` returns a `MessageLocation` plus the (opaque)
  message object it filled in, `locIsValid` models `MessageLocation::isValid()`
  and `validateMessage` models `IProtocolManager::validateMessage`.
* `MessageLocation`'s fields `m_startPos`, `m_incompletePos`, `m_size` are C++
  `int`, hence `Int` here, with `-1` the "not found / none" sentinel.
* The C++ `for(;;)` scan loop need not terminate for arbitrary locators, so it
  is embedded with explicit fuel; `none` models a non-returning call.
  `processNewData` supplies fuel `buffer.length + 1`, which is shown to be
  sufficient for every locator whose validated candidates lie inside the
  queried window and have positive size.
* `m_retryTimeout` is a C++ `int` that is only ever zero-initialised,
  post-incremented and reset to `0`, so it is embedded as `Nat`.
-/

/-- Result codes actually produced by `processNewData`
(`XRV_OK`, `XRV_TIMEOUTNODATA`, `XRV_ERROR`). -/
inductive XsResultValue where
  | XRV_OK
  | XRV_TIMEOUTNODATA
  | XRV_ERROR
deriving DecidableEq

/-- The location record returned by `IProtocolManager::findMessage`.  All three
fields are C++ `int`; `-1` is the sentinel for "not found"/"no incomplete
candidate". -/
structure MessageLocation where
  m_startPos : Int
  m_incompletePos : Int
  m_size : Int
deriving DecidableEq

/-- Modelled from the spec: the Message Locator collaborator
(`IProtocolManager` together with `MessageLocation::isValid`, neither of which
is implemented in this repository).  `findMessage` scans a byte window and
reports a candidate location plus the message object it parsed; `locIsValid`
is the found/not-found flag check `MessageLocation::isValid()`;
`validateMessage` is the structural/checksum check. -/
structure IProtocolManager (Msg : Type) where
  findMessage : List Nat → MessageLocation × Msg
  locIsValid : MessageLocation → Bool
  validateMessage : Msg → Bool

/-- `MessageExtractor::m_maxIncompleteRetryCount = 5` (messageextractor.cpp
line 43). -/
def m_maxIncompleteRetryCount : Nat := 5

/-- The extractor state: the (possibly absent) protocol manager, the retry
counter `m_retryTimeout` and the sliding-window buffer `m_buffer`. -/
structure MessageExtractor (Msg : Type) where
  m_protocolManager : Option (IProtocolManager Msg)
  m_retryTimeout : Nat
  m_buffer : List Nat

/-- Buffer part of the `retval` lambda (messageextractor.cpp lines 79-86):
`if (popped > 0) m_buffer.pop_front(popped)`. -/
def retvalBuffer (buffer : List Nat) (popped : Int) : List Nat :=
  if 0 < popped then buffer.drop popped.toNat else buffer

/-- Status part of the `retval` lambda (messageextractor.cpp lines 82-85):
`XRV_TIMEOUTNODATA` when no message was collected this call, else `XRV_OK`. -/
def retvalStatus {Msg : Type} (messages : List Msg) : XsResultValue :=
  if messages.isEmpty then XsResultValue.XRV_TIMEOUTNODATA else XsResultValue.XRV_OK

/-- The `for(;;)` scan loop of `processNewData` (messageextractor.cpp lines
88-154), with explicit fuel (`none` = the loop did not return within `fuel`
iterations; the C++ loop has no other exit than the `return` statements
embedded here).  State: `buffer` (the appended buffer, fixed during the loop),
`popped` (cumulative consumed offset, a C++ `int`), `retryTimeout`
(`m_retryTimeout`) and `messages` (collected this call).

Branch correspondence:
* `raw` is the window `(m_buffer.data() + popped, m_buffer.size() - popped)`.
* The outer test is `location.isValid() && validateMessage(message)` (line 97).
* The deferral return (lines 101-118) fires exactly when
  `m_startPos > 0 && m_incompletePos != -1 && m_retryTimeout++ <
  m_maxIncompleteRetryCount`; the post-increment makes the stored counter
  `retryTimeout + 1`.  It pops `m_incompletePos` extra bytes only when
  `m_incompletePos > 0` (lines 112-116) and returns `retval()`.
* In every other validated case control reaches lines 140-148: the counter is
  reset to `0` (it was either untouched, or bumped past the maximum and then
  reset), `popped += location.m_size + location.m_startPos`, the message is
  appended, and the loop continues.
* A non-validated answer returns `retval()` (line 152). -/
def processLoop {Msg : Type} (pm : IProtocolManager Msg) :
    Nat → List Nat → Int → Nat → List Msg →
      Option (List Nat × Nat × List Msg × XsResultValue)
  | 0, _, _, _, _ => none
  | fuel + 1, buffer, popped, retryTimeout, messages =>
      let raw := buffer.drop popped.toNat
      let found := pm.findMessage raw
      let location := found.1
      let message := found.2
      if pm.locIsValid location && pm.validateMessage message then
        if 0 < location.m_startPos ∧ location.m_incompletePos ≠ -1 ∧
            retryTimeout < m_maxIncompleteRetryCount then
          let popped' :=
            if 0 < location.m_incompletePos then popped + location.m_incompletePos
            else popped
          some (retvalBuffer buffer popped', retryTimeout + 1, messages,
            retvalStatus messages)
        else
          processLoop pm fuel buffer
            (popped + (location.m_size + location.m_startPos)) 0
            (messages ++ [message])
      else
        some (retvalBuffer buffer popped, retryTimeout, messages,
          retvalStatus messages)

/-- Result of one `processNewData` call: the updated extractor, the contents of
the caller-supplied `messages` container after the call, and the returned
status. -/
structure ProcessResult (Msg : Type) where
  extractor : MessageExtractor Msg
  messages : List Msg
  status : XsResultValue

/-- `MessageExtractor::processNewData` (messageextractor.cpp lines 62-155).
`messages` is the caller-supplied output container (its pre-call contents
matter only for the unbound-manager early return, which leaves it untouched;
otherwise it is cleared at line 77 before the scan loop runs).  `none` models
a call that never returns (the scan loop spinning forever). -/
def processNewData {Msg : Type} (e : MessageExtractor Msg) (newData : List Nat)
    (messages : List Msg) : Option (ProcessResult Msg) :=
  match e.m_protocolManager with
  | none => some ⟨e, messages, XsResultValue.XRV_ERROR⟩
  | some pm =>
      let buffer := if newData ≠ [] then e.m_buffer ++ newData else e.m_buffer
      match processLoop pm (buffer.length + 1) buffer 0 e.m_retryTimeout [] with
      | none => none
      | some (buf, retry, msgs, status) =>
          some ⟨⟨e.m_protocolManager, retry, buf⟩, msgs, status⟩

/-- `MessageExtractor::clearBuffer` (messageextractor.cpp lines 159-162). -/
def clearBuffer {Msg : Type} (e : MessageExtractor Msg) : MessageExtractor Msg :=
  { e with m_buffer := [] }

/-- The contract assertion on line 99 of messageextractor.cpp:
`assert(location.m_startPos == -1 || location.m_incompletePos == -1 ||
location.m_incompletePos < location.m_startPos)`. -/
def locationAssert (location : MessageLocation) : Bool :=
  decide (location.m_startPos = -1) || decide (location.m_incompletePos = -1) ||
    decide (location.m_incompletePos < location.m_startPos)

/-- A locator is well behaved when every candidate it reports as valid and
validated lies inside the queried window and has positive size.  This is the
sanity condition under which the scan loop terminates. -/
def WellBehavedLocator {Msg : Type} (pm : IProtocolManager Msg) : Prop :=
  ∀ w loc msg, pm.findMessage w = (loc, msg) → pm.locIsValid loc = true →
    pm.validateMessage msg = true →
      0 ≤ loc.m_startPos ∧ 1 ≤ loc.m_size ∧
        loc.m_startPos + loc.m_size ≤ (w.length : Int)

/-- The scan loop, started in the given configuration, returns with some fuel
bound (equivalently: the C++ `for(;;)` loop eventually executes a `return`). -/
def LoopTerminates {Msg : Type} (pm : IProtocolManager Msg) (buffer : List Nat)
    (popped : Int) (retryTimeout : Nat) (messages : List Msg) : Prop :=
  ∃ fuel, (processLoop pm fuel buffer popped retryTimeout messages).isSome

/-! ### Helper lemmas about the scan loop -/

/-- One unfolding of the loop when the locator answer fails
`location.isValid() && validateMessage(message)`: the loop returns `retval()`
(line 152). -/
theorem processLoop_exit {Msg : Type} (pm : IProtocolManager Msg) (fuel : Nat)
    (buffer : List Nat) (popped : Int) (retryTimeout : Nat) (messages : List Msg)
    (loc : MessageLocation) (msg : Msg)
    (hfm : pm.findMessage (buffer.drop popped.toNat) = (loc, msg))
    (hv : (pm.locIsValid loc && pm.validateMessage msg) = false) :
    processLoop pm (fuel + 1) buffer popped retryTimeout messages =
      some (retvalBuffer buffer popped, retryTimeout, messages,
        retvalStatus messages) := by
  simp [processLoop, hfm, hv]

/-- One unfolding of the loop in the deferral branch (lines 104-118): a
validated candidate with junk ahead of it (`m_startPos > 0`), an incomplete
candidate pending (`m_incompletePos != -1`) and retry budget left.  The loop
returns `retval()` after popping the junk strictly before the incomplete
candidate, with the counter post-incremented and not reset. -/
theorem processLoop_defer {Msg : Type} (pm : IProtocolManager Msg) (fuel : Nat)
    (buffer : List Nat) (popped : Int) (retryTimeout : Nat) (messages : List Msg)
    (loc : MessageLocation) (msg : Msg)
    (hfm : pm.findMessage (buffer.drop popped.toNat) = (loc, msg))
    (hv : pm.locIsValid loc = true) (hvm : pm.validateMessage msg = true)
    (hs : 0 < loc.m_startPos) (hi : loc.m_incompletePos ≠ -1)
    (hr : retryTimeout < m_maxIncompleteRetryCount) :
    processLoop pm (fuel + 1) buffer popped retryTimeout messages =
      some (retvalBuffer buffer
          (if 0 < loc.m_incompletePos then popped + loc.m_incompletePos else popped),
        retryTimeout + 1, messages, retvalStatus messages) := by
  simp [processLoop, hfm, hv, hvm, hs, hi, hr]

/-- One unfolding of the loop in the accept path (lines 140-148): a validated
candidate outside the deferral branch.  The counter is reset to `0`, the
consumed offset advances by `m_size + m_startPos`, the message is appended and
the loop continues. -/
theorem processLoop_accept {Msg : Type} (pm : IProtocolManager Msg) (fuel : Nat)
    (buffer : List Nat) (popped : Int) (retryTimeout : Nat) (messages : List Msg)
    (loc : MessageLocation) (msg : Msg)
    (hfm : pm.findMessage (buffer.drop popped.toNat) = (loc, msg))
    (hv : pm.locIsValid loc = true) (hvm : pm.validateMessage msg = true)
    (hnd : ¬ (0 < loc.m_startPos ∧ loc.m_incompletePos ≠ -1 ∧
        retryTimeout < m_maxIncompleteRetryCount)) :
    processLoop pm (fuel + 1) buffer popped retryTimeout messages =
      processLoop pm fuel buffer (popped + (loc.m_size + loc.m_startPos)) 0
        (messages ++ [msg]) := by
  simp [processLoop, hfm, hv, hvm, hnd]

/-- Bridge from `processNewData` to the loop on the appended buffer. -/
theorem processNewData_some {Msg : Type} (pm : IProtocolManager Msg) (rt : Nat)
    (buf newData : List Nat) (prior : List Msg) (b : List Nat) (rt' : Nat)
    (ms : List Msg) (st : XsResultValue)
    (h : processLoop pm ((if newData ≠ [] then buf ++ newData else buf).length + 1)
        (if newData ≠ [] then buf ++ newData else buf) 0 rt [] = some (b, rt', ms, st)) :
    processNewData (⟨some pm, rt, buf⟩ : MessageExtractor Msg) newData prior =
      some ⟨⟨some pm, rt', b⟩, ms, st⟩ := by
  simp only [processNewData, h]

/-- Bridge from `processNewData` with an empty chunk (nothing appended). -/
theorem processNewData_nil_chunk {Msg : Type} (pm : IProtocolManager Msg) (rt : Nat)
    (buf : List Nat) (prior : List Msg) (b : List Nat) (rt' : Nat)
    (ms : List Msg) (st : XsResultValue)
    (h : processLoop pm (buf.length + 1) buf 0 rt [] = some (b, rt', ms, st)) :
    processNewData (⟨some pm, rt, buf⟩ : MessageExtractor Msg) [] prior =
      some ⟨⟨some pm, rt', b⟩, ms, st⟩ := by
  apply processNewData_some
  simpa using h

/-- `retvalBuffer` always produces a drop of the buffer. -/
theorem retvalBuffer_eq_drop (buffer : List Nat) (popped : Int) :
    ∃ d, retvalBuffer buffer popped = buffer.drop d := by
  unfold retvalBuffer
  split
  · exact ⟨popped.toNat, rfl⟩
  · exact ⟨0, by simp⟩

/-- Every value the scan loop returns carries the status computed by the
`retval` lambda from the returned message list. -/
theorem processLoop_status {Msg : Type} (pm : IProtocolManager Msg) :
    ∀ (fuel : Nat) (buffer : List Nat) (popped : Int) (retryTimeout : Nat)
      (messages : List Msg) (b : List Nat) (rt : Nat) (ms : List Msg)
      (st : XsResultValue),
      processLoop pm fuel buffer popped retryTimeout messages = some (b, rt, ms, st) →
      st = retvalStatus ms := by
  intro fuel
  induction fuel with
  | zero =>
      intro buffer popped retryTimeout messages b rt ms st h
      simp [processLoop] at h
  | succ n ih =>
      intro buffer popped retryTimeout messages b rt ms st h
      simp only [processLoop] at h
      split at h
      · split at h
        · simp only [Option.some.injEq, Prod.mk.injEq] at h
          obtain ⟨-, -, h3, h4⟩ := h
          rw [← h4, ← h3]
        · exact ih _ _ _ _ _ _ _ _ h
      · simp only [Option.some.injEq, Prod.mk.injEq] at h
        obtain ⟨-, -, h3, h4⟩ := h
        rw [← h4, ← h3]

/-- Every buffer the scan loop returns is a head-drop of the working buffer. -/
theorem processLoop_dropped {Msg : Type} (pm : IProtocolManager Msg) :
    ∀ (fuel : Nat) (buffer : List Nat) (popped : Int) (retryTimeout : Nat)
      (messages : List Msg) (b : List Nat) (rt : Nat) (ms : List Msg)
      (st : XsResultValue),
      processLoop pm fuel buffer popped retryTimeout messages = some (b, rt, ms, st) →
      ∃ d, b = buffer.drop d := by
  intro fuel
  induction fuel with
  | zero =>
      intro buffer popped retryTimeout messages b rt ms st h
      simp [processLoop] at h
  | succ n ih =>
      intro buffer popped retryTimeout messages b rt ms st h
      simp only [processLoop] at h
      split at h
      · split at h
        · simp only [Option.some.injEq, Prod.mk.injEq] at h
          obtain ⟨h1, -, -, -⟩ := h
          obtain ⟨d, hd⟩ := retvalBuffer_eq_drop buffer _
          exact ⟨d, by rw [← h1, hd]⟩
        · exact ih _ _ _ _ _ _ _ _ h
      · simp only [Option.some.injEq, Prod.mk.injEq] at h
        obtain ⟨h1, -, -, -⟩ := h
        obtain ⟨d, hd⟩ := retvalBuffer_eq_drop buffer popped
        exact ⟨d, by rw [← h1, hd]⟩

/-- Starting the scan loop with a zero retry counter, the returned counter is
`0` or `1` (it can only grow by the single post-increment of a final deferral). -/
theorem processLoop_retryTimeout_le_one {Msg : Type} (pm : IProtocolManager Msg) :
    ∀ (fuel : Nat) (buffer : List Nat) (popped : Int) (messages : List Msg)
      (b : List Nat) (rt : Nat) (ms : List Msg) (st : XsResultValue),
      processLoop pm fuel buffer popped 0 messages = some (b, rt, ms, st) →
      rt = 0 ∨ rt = 1 := by
  intro fuel
  induction fuel with
  | zero =>
      intro buffer popped messages b rt ms st h
      simp [processLoop] at h
  | succ n ih =>
      intro buffer popped messages b rt ms st h
      simp only [processLoop] at h
      split at h
      · split at h
        · simp only [Option.some.injEq, Prod.mk.injEq] at h
          exact Or.inr h.2.1.symm
        · exact ih _ _ _ _ _ _ _ h
      · simp only [Option.some.injEq, Prod.mk.injEq] at h
        exact Or.inl h.2.1.symm

/-- If the scan loop returns having collected at least one message, the stored
retry counter is `0` or `1`: the first accept resets it to `0`, and only a
final deferral can bump it once afterwards. -/
theorem processLoop_retry_after_collect {Msg : Type} (pm : IProtocolManager Msg)
    (fuel : Nat) (buffer : List Nat) (popped : Int) (retryTimeout : Nat)
    (b : List Nat) (rt : Nat) (ms : List Msg) (st : XsResultValue)
    (h : processLoop pm (fuel + 1) buffer popped retryTimeout [] = some (b, rt, ms, st))
    (hms : ms ≠ []) : rt = 0 ∨ rt = 1 := by
  simp only [processLoop] at h
  split at h
  · split at h
    · simp only [Option.some.injEq, Prod.mk.injEq] at h
      exact absurd h.2.2.1.symm hms
    · exact processLoop_retryTimeout_le_one pm _ _ _ _ _ _ _ _ h
  · simp only [Option.some.injEq, Prod.mk.injEq] at h
    exact absurd h.2.2.1.symm hms

/-- For a well-behaved locator the scan loop returns once the fuel exceeds the
number of unconsumed bytes: every accepted candidate strictly advances the
consumed offset while staying inside the buffer. -/
theorem processLoop_isSome_of_wellBehaved {Msg : Type} (pm : IProtocolManager Msg)
    (hwb : WellBehavedLocator pm) :
    ∀ (fuel : Nat) (buffer : List Nat) (popped : Int) (retryTimeout : Nat)
      (messages : List Msg),
      0 ≤ popped → popped ≤ (buffer.length : Int) →
      (buffer.length : Int) < popped + fuel →
      (processLoop pm fuel buffer popped retryTimeout messages).isSome := by
  intro fuel
  induction fuel with
  | zero =>
      intro buffer popped retryTimeout messages h0 h1 h2
      exfalso
      omega
  | succ n ih =>
      intro buffer popped retryTimeout messages h0 h1 h2
      rcases hfm : pm.findMessage (buffer.drop popped.toNat) with ⟨loc, msg⟩
      by_cases hv : (pm.locIsValid loc && pm.validateMessage msg) = true
      · rw [Bool.and_eq_true] at hv
        by_cases hc : 0 < loc.m_startPos ∧ loc.m_incompletePos ≠ -1 ∧
            retryTimeout < m_maxIncompleteRetryCount
        · rw [processLoop_defer pm n buffer popped retryTimeout messages loc msg hfm
            hv.1 hv.2 hc.1 hc.2.1 hc.2.2]
          simp
        · rw [processLoop_accept pm n buffer popped retryTimeout messages loc msg hfm
            hv.1 hv.2 hc]
          obtain ⟨ha, hb, hcontained⟩ := hwb _ _ _ hfm hv.1 hv.2
          have hwlen : ((buffer.drop popped.toNat).length : Int) =
              (buffer.length : Int) - (popped.toNat : Int) := by
            rw [List.length_drop]
            omega
          apply ih
          · omega
          · omega
          · omega
      · rw [processLoop_exit pm n buffer popped retryTimeout messages loc msg hfm
          (by simpa using hv)]
        simp

/-! ### Concrete locators for witnesses and counterexamples -/

/-- A locator that never reports a candidate (`m_startPos = -1`, invalid). -/
def neverFindPm : IProtocolManager Nat where
  findMessage _ := (⟨-1, -1, 0⟩, 0)
  locIsValid loc := decide (0 ≤ loc.m_startPos)
  validateMessage _ := true

/-- `neverFindPm` is trivially well behaved: it validates nothing. -/
theorem neverFindPm_wellBehaved : WellBehavedLocator neverFindPm := by
  intro w loc msg hfm hv _
  exfalso
  have hloc : loc = ⟨-1, -1, 0⟩ := by
    have : (⟨-1, -1, 0⟩, 0) = (loc, msg) := hfm
    exact (Prod.mk.injEq _ _ _ _ ▸ this).1.symm ▸ rfl
  rw [hloc] at hv
  simp [neverFindPm] at hv

/-- Scenario locator: on the full buffer `[9,9,250,7,250,8,8]` it reports a
validated candidate at offset 4 (size 3) with an incomplete candidate at
offset 2 (junk `[9,9]` ahead); on the once-deferred buffer `[250,7,250,8,8]`
the same candidate shifted to offset 2 with the incomplete candidate now at
offset 0; anywhere else it finds nothing. -/
def c1Pm : IProtocolManager Nat where
  findMessage w :=
    if w = [9, 9, 250, 7, 250, 8, 8] then (⟨4, 2, 3⟩, 1)
    else if w = [250, 7, 250, 8, 8] then (⟨2, 0, 3⟩, 2)
    else (⟨-1, -1, 0⟩, 0)
  locIsValid loc := decide (0 ≤ loc.m_startPos)
  validateMessage _ := true

/-- Locator for the C5 counterexample: one complete message at the head of
`[1,2,7,3,4]`, then junk + an incomplete candidate at offset 0 + a valid
candidate at offset 2 in the remaining window `[7,3,4]`. -/
def cx5Pm : IProtocolManager Nat where
  findMessage w :=
    if w = [1, 2, 7, 3, 4] then (⟨0, -1, 2⟩, 100)
    else if w = [7, 3, 4] then (⟨2, 0, 1⟩, 200)
    else (⟨-1, -1, 0⟩, 0)
  locIsValid loc := decide (0 ≤ loc.m_startPos)
  validateMessage _ := true

/-- Locator for the C7 counterexample: the chunk `[33,34]` is one complete
message filling the whole buffer. -/
def cx7Pm : IProtocolManager Nat where
  findMessage w :=
    if w = [33, 34] then (⟨0, -1, 2⟩, 1)
    else (⟨-1, -1, 0⟩, 0)
  locIsValid loc := decide (0 ≤ loc.m_startPos)
  validateMessage _ := true

/-- Locator for the C6 counterexample: it always reports a validated candidate
of size `0` at offset `0`, so the scan loop never advances and never returns. -/
def sizeZeroPm : IProtocolManager Nat where
  findMessage _ := (⟨0, -1, 0⟩, 0)
  locIsValid _ := true
  validateMessage _ := true

/-- With `sizeZeroPm` the scan loop runs out of any amount of fuel: each
iteration accepts a candidate advancing the consumed offset by `0`. -/
theorem sizeZeroPm_loop_none :
    ∀ (fuel : Nat) (buffer : List Nat) (popped : Int) (retryTimeout : Nat)
      (messages : List Nat),
      processLoop sizeZeroPm fuel buffer popped retryTimeout messages = none := by
  intro fuel
  induction fuel with
  | zero =>
      intro buffer popped retryTimeout messages
      simp [processLoop]
  | succ n ih =>
      intro buffer popped retryTimeout messages
      rw [processLoop_accept sizeZeroPm n buffer popped retryTimeout messages
        ⟨0, -1, 0⟩ 0 rfl rfl rfl (by norm_num)]
      exact ih _ _ _ _

/-! ### Claim theorems -/

/-- Claim C2: for every call to `processNewData`, if no locator is bound the
call returns `XRV_ERROR` immediately with the extractor (buffer included) and
the caller's container untouched; otherwise any returning call yields `XRV_OK`
exactly when at least one message was extracted this call and
`XRV_TIMEOUTNODATA` otherwise, and no other status is possible. -/
theorem claim_C2_status_semantics {Msg : Type} (e : MessageExtractor Msg)
    (newData : List Nat) (prior : List Msg) :
    (e.m_protocolManager = none →
      processNewData e newData prior = some ⟨e, prior, XsResultValue.XRV_ERROR⟩) ∧
    (e.m_protocolManager ≠ none → ∀ r, processNewData e newData prior = some r →
      ((r.status = XsResultValue.XRV_OK ↔ r.messages ≠ []) ∧
       (r.status = XsResultValue.XRV_OK ∨ r.status = XsResultValue.XRV_TIMEOUTNODATA))) := by
  obtain ⟨pmo, rt, buf⟩ := e
  constructor
  · intro hpm
    simp only at hpm
    subst hpm
    simp [processNewData]
  · intro hpm r hr
    rcases pmo with _ | pm
    · simp at hpm
    · simp only [processNewData] at hr
      rcases hl : processLoop pm
          ((if newData ≠ [] then buf ++ newData else buf).length + 1)
          (if newData ≠ [] then buf ++ newData else buf) 0 rt [] with _ | ⟨b, rt', ms, st⟩
      · rw [hl] at hr
        simp at hr
      · rw [hl] at hr
        simp only [Option.some.injEq] at hr
        subst hr
        have hst := processLoop_status pm _ _ _ _ _ _ _ _ _ hl
        rcases ms with _ | ⟨m, tl⟩ <;> simp [retvalStatus] at hst <;> simp [hst]

/-- Witness for C2 at concrete inputs: an unbound manager returns `XRV_ERROR`
leaving state and container untouched; a bound manager that finds nothing
returns `XRV_TIMEOUTNODATA` with an empty message list. -/
theorem claim_C2_status_semantics_witness :
    processNewData (⟨none, 0, []⟩ : MessageExtractor Nat) [1] [42] =
      some ⟨⟨none, 0, []⟩, [42], XsResultValue.XRV_ERROR⟩ ∧
    ((XsResultValue.XRV_TIMEOUTNODATA = XsResultValue.XRV_OK ↔ ([] : List Nat) ≠ []) ∧
     (XsResultValue.XRV_TIMEOUTNODATA = XsResultValue.XRV_OK ∨
      XsResultValue.XRV_TIMEOUTNODATA = XsResultValue.XRV_TIMEOUTNODATA)) := by
  constructor
  · exact (claim_C2_status_semantics (⟨none, 0, []⟩ : MessageExtractor Nat) [1] [42]).1 rfl
  · exact (claim_C2_status_semantics (⟨some neverFindPm, 0, []⟩ : MessageExtractor Nat)
      [3] []).2 (by simp)
      ⟨⟨some neverFindPm, 0, [3]⟩, [], XsResultValue.XRV_TIMEOUTNODATA⟩ rfl

/-- Claim C3: in every loop iteration where the locator reports a validated
candidate with `startOffset > 0` and a defined (non-negative) incomplete
offset while the retry counter is below the maximum, the call returns
immediately; exactly the `incompleteOffset` bytes strictly before the
incomplete candidate are dropped from the head of the unconsumed window, the
rest of the window is retained unchanged, the counter is incremented (not
reset), and the status is `XRV_TIMEOUTNODATA` unless messages were already
collected this call (`retvalStatus`). -/
theorem claim_C3_deferral_branch {Msg : Type} (pm : IProtocolManager Msg)
    (fuel : Nat) (buffer : List Nat) (popped : Int) (retryTimeout : Nat)
    (messages : List Msg) (loc : MessageLocation) (msg : Msg)
    (hpop : 0 ≤ popped)
    (hfm : pm.findMessage (buffer.drop popped.toNat) = (loc, msg))
    (hv : pm.locIsValid loc = true) (hvm : pm.validateMessage msg = true)
    (hs : 0 < loc.m_startPos) (hi : 0 ≤ loc.m_incompletePos)
    (hr : retryTimeout < m_maxIncompleteRetryCount) :
    processLoop pm (fuel + 1) buffer popped retryTimeout messages =
      some ((buffer.drop popped.toNat).drop loc.m_incompletePos.toNat,
        retryTimeout + 1, messages, retvalStatus messages) := by
  rw [processLoop_defer pm fuel buffer popped retryTimeout messages loc msg hfm hv hvm
    hs (by omega) hr]
  have hbuf : retvalBuffer buffer
      (if 0 < loc.m_incompletePos then popped + loc.m_incompletePos else popped) =
      (buffer.drop popped.toNat).drop loc.m_incompletePos.toNat := by
    by_cases hpos : 0 < loc.m_incompletePos
    · rw [if_pos hpos, retvalBuffer, if_pos (by omega), List.drop_drop]
      congr 1
      omega
    · have hi0 : loc.m_incompletePos = 0 := by omega
      rw [if_neg hpos, hi0, retvalBuffer]
      by_cases hp : 0 < popped
      · rw [if_pos hp]
        simp
      · have hp0 : popped = 0 := by omega
        rw [if_neg hp, hp0]
        simp
  rw [hbuf]

/-- Witness for C3: the scenario locator deferring on the full buffer with
junk `[9,9]` ahead of the incomplete candidate at offset 2; exactly those two
junk bytes are dropped, the counter goes from 0 to 1. -/
theorem claim_C3_deferral_branch_witness :
    processLoop c1Pm 1 [9, 9, 250, 7, 250, 8, 8] 0 0 ([] : List Nat) =
      some (([9, 9, 250, 7, 250, 8, 8].drop ((0 : Int)).toNat).drop ((2 : Int)).toNat,
        1, [], retvalStatus ([] : List Nat)) :=
  claim_C3_deferral_branch c1Pm 0 [9, 9, 250, 7, 250, 8, 8] 0 0 [] ⟨4, 2, 3⟩ 1
    (by decide) (by decide) (by decide) (by decide) (by decide) (by decide) (by decide)

/-- Claim C4: in every loop iteration where the locator reports a validated
candidate with `startOffset > 0`, a defined incomplete offset, and the retry
counter at (or beyond) the maximum, the whole `startOffset` region is marked
discardable together with the accepted candidate: the consumed offset advances
by `m_size + m_startPos`, the retry counter is reset to `0`, the message is
appended, and scanning continues within the same call (the incomplete
candidate is never re-validated — no extra locator query happens before the
continuation). -/
theorem claim_C4_exhaustion_branch {Msg : Type} (pm : IProtocolManager Msg)
    (fuel : Nat) (buffer : List Nat) (popped : Int) (retryTimeout : Nat)
    (messages : List Msg) (loc : MessageLocation) (msg : Msg)
    (hfm : pm.findMessage (buffer.drop popped.toNat) = (loc, msg))
    (hv : pm.locIsValid loc = true) (hvm : pm.validateMessage msg = true)
    (_hs : 0 < loc.m_startPos) (_hi : loc.m_incompletePos ≠ -1)
    (hr : m_maxIncompleteRetryCount ≤ retryTimeout) :
    processLoop pm (fuel + 1) buffer popped retryTimeout messages =
      processLoop pm fuel buffer (popped + (loc.m_size + loc.m_startPos)) 0
        (messages ++ [msg]) :=
  processLoop_accept pm fuel buffer popped retryTimeout messages loc msg hfm hv hvm
    (fun hcon => absurd hcon.2.2 (by omega))

/-- Witness for C4: the scenario locator on the once-deferred buffer with the
counter exhausted at 5; the iteration advances the consumed offset by
`size + startOffset = 3 + 2` and continues with the message accepted and the
counter reset. -/
theorem claim_C4_exhaustion_branch_witness :
    processLoop c1Pm 2 [250, 7, 250, 8, 8] 0 5 ([] : List Nat) =
      processLoop c1Pm 1 [250, 7, 250, 8, 8] (0 + ((3 : Int) + 2)) 0 ([] ++ [2]) :=
  claim_C4_exhaustion_branch c1Pm 1 [250, 7, 250, 8, 8] 0 5 [] ⟨2, 0, 3⟩ 2
    (by decide) (by decide) (by decide) (by decide) (by decide) (by decide)

/-- Claim C9: the Locator contract — whenever both `m_incompletePos` and
`m_startPos` are defined (not `-1`), `m_incompletePos < m_startPos` — implies
the assertion checked on line 99 of `processNewData`'s valid-candidate branch,
so its failure case is unreachable under that precondition. -/
theorem claim_C9_assert_validity (location : MessageLocation)
    (hContract : location.m_incompletePos ≠ -1 → location.m_startPos ≠ -1 →
      location.m_incompletePos < location.m_startPos) :
    locationAssert location = true := by
  by_cases h1 : location.m_startPos = -1
  · simp [locationAssert, h1]
  · by_cases h2 : location.m_incompletePos = -1
    · simp [locationAssert, h2]
    · simp [locationAssert, hContract h2 h1]

/-- Witness for C9 at a concrete location satisfying the contract. -/
theorem claim_C9_assert_validity_witness :
    locationAssert ⟨4, 2, 3⟩ = true :=
  claim_C9_assert_validity ⟨4, 2, 3⟩ (by decide)

/-- Claim C10: for every returning call with a locator bound, the retained
buffer is a contiguous suffix of the pre-call buffer concatenated with the new
chunk: bytes are only appended at the tail and removed from the head as a
single prefix drop at return. -/
theorem claim_C10_buffer_suffix {Msg : Type} (e : MessageExtractor Msg)
    (pm : IProtocolManager Msg) (newData : List Nat) (prior : List Msg)
    (r : ProcessResult Msg)
    (hpm : e.m_protocolManager = some pm)
    (hr : processNewData e newData prior = some r) :
    List.IsSuffix r.extractor.m_buffer (e.m_buffer ++ newData) := by
  obtain ⟨pmo, rt, buf⟩ := e
  simp only at hpm
  subst hpm
  simp only [processNewData] at hr
  rcases hl : processLoop pm ((if newData ≠ [] then buf ++ newData else buf).length + 1)
      (if newData ≠ [] then buf ++ newData else buf) 0 rt [] with _ | ⟨b, rt', ms, st⟩
  · rw [hl] at hr
    simp at hr
  · rw [hl] at hr
    simp only [Option.some.injEq] at hr
    subst hr
    obtain ⟨d, hd⟩ := processLoop_dropped pm _ _ _ _ _ _ _ _ _ hl
    have hbe : (if newData ≠ [] then buf ++ newData else buf) = buf ++ newData := by
      by_cases h : newData = [] <;> simp [h]
    rw [hbe] at hd
    simpa [hd] using List.drop_suffix d (buf ++ newData)

/-- Witness for C10: a call that appends `[5]` to an empty buffer and finds
nothing retains `[5]`, a suffix of the appended buffer. -/
theorem claim_C10_buffer_suffix_witness :
    List.IsSuffix ([5] : List Nat) (([] : List Nat) ++ [5]) :=
  claim_C10_buffer_suffix (⟨some neverFindPm, 0, []⟩ : MessageExtractor Nat) neverFindPm
    [5] [] ⟨⟨some neverFindPm, 0, [5]⟩, [], XsResultValue.XRV_TIMEOUTNODATA⟩ rfl rfl

/-- Dropping from a list either strictly shortens it or leaves it unchanged. -/
theorem dropLength_lt_or_eq {α : Type} (l : List α) (d : Nat) :
    (l.drop d).length < l.length ∨ l.drop d = l := by
  rcases d with _ | d
  · right
    simp
  · rcases l with _ | ⟨a, tl⟩
    · right
      simp
    · left
      rw [List.length_drop]
      simp only [List.length_cons]
      omega

/-- Claim C7 (amended): for every returning call with a locator bound, the
retained buffer length is strictly smaller than the length of the pre-call
buffer plus the appended chunk, unless the call dropped nothing from the head
(in which case the retained buffer is exactly the pre-call buffer plus the
chunk).  The claim's original baseline — the pre-call length alone — is
refuted by `claim_C7_counterexample`. -/
theorem claim_C7_progress {Msg : Type} (e : MessageExtractor Msg)
    (pm : IProtocolManager Msg) (newData : List Nat) (prior : List Msg)
    (r : ProcessResult Msg)
    (hpm : e.m_protocolManager = some pm)
    (hr : processNewData e newData prior = some r) :
    r.extractor.m_buffer.length < (e.m_buffer ++ newData).length ∨
      r.extractor.m_buffer = e.m_buffer ++ newData := by
  obtain ⟨pmo, rt, buf⟩ := e
  simp only at hpm
  subst hpm
  simp only [processNewData] at hr
  rcases hl : processLoop pm ((if newData ≠ [] then buf ++ newData else buf).length + 1)
      (if newData ≠ [] then buf ++ newData else buf) 0 rt [] with _ | ⟨b, rt', ms, st⟩
  · rw [hl] at hr
    simp at hr
  · rw [hl] at hr
    simp only [Option.some.injEq] at hr
    subst hr
    obtain ⟨d, hd⟩ := processLoop_dropped pm _ _ _ _ _ _ _ _ _ hl
    have hbe : (if newData ≠ [] then buf ++ newData else buf) = buf ++ newData := by
      by_cases h : newData = [] <;> simp [h]
    rw [hbe] at hd
    simpa [hd] using dropLength_lt_or_eq (buf ++ newData) d

/-- Counterexample to C7 as stated: starting from an empty buffer, the chunk
`[33,34]` is one complete message; the call appends it, consumes it and
extracts one message, yet the retained length (0) is not strictly less than
the pre-call length (0) — and the stated exception does not apply since bytes
were both appended and consumed. -/
theorem claim_C7_counterexample :
    processNewData (⟨some cx7Pm, 0, []⟩ : MessageExtractor Nat) [33, 34] [] =
      some ⟨⟨some cx7Pm, 0, []⟩, [1], XsResultValue.XRV_OK⟩ ∧
    ¬ (([] : List Nat).length < ([] : List Nat).length) := ⟨rfl, by omega⟩

/-- Witness for the amended C7 at a concrete input: the consuming call
strictly shrinks the buffer below pre-call-plus-chunk length. -/
theorem claim_C7_progress_witness :
    (([] : List Nat).length < (([] : List Nat) ++ [33, 34]).length) ∨
      ([] : List Nat) = ([] : List Nat) ++ [33, 34] :=
  claim_C7_progress (⟨some cx7Pm, 0, []⟩ : MessageExtractor Nat) cx7Pm [33, 34] []
    ⟨⟨some cx7Pm, 0, []⟩, [1], XsResultValue.XRV_OK⟩ rfl rfl

/-- Claim C5 (amended): after any returning call that accepts at least one
message (which includes every call performing a skip with no incomplete
candidate pending, since such a skip is always followed by an accept in the
same iteration), the retry counter is `0` — unless the call's final locator
query deferred a freshly found incomplete candidate, in which case it is
exactly `1`.  The unconditional form of the claim is refuted by
`claim_C5_counterexample`. -/
theorem claim_C5_counter_reset {Msg : Type} (e : MessageExtractor Msg)
    (pm : IProtocolManager Msg) (newData : List Nat) (prior : List Msg)
    (r : ProcessResult Msg)
    (hpm : e.m_protocolManager = some pm)
    (hr : processNewData e newData prior = some r)
    (hms : r.messages ≠ []) :
    r.extractor.m_retryTimeout = 0 ∨ r.extractor.m_retryTimeout = 1 := by
  obtain ⟨pmo, rt, buf⟩ := e
  simp only at hpm
  subst hpm
  simp only [processNewData] at hr
  rcases hl : processLoop pm ((if newData ≠ [] then buf ++ newData else buf).length + 1)
      (if newData ≠ [] then buf ++ newData else buf) 0 rt [] with _ | ⟨b, rt', ms, st⟩
  · rw [hl] at hr
    simp at hr
  · rw [hl] at hr
    simp only [Option.some.injEq] at hr
    subst hr
    exact processLoop_retry_after_collect pm _ _ _ _ _ _ _ _ hl (by simpa using hms)

/-- Counterexample to C5 as stated: the call on chunk `[1,2,7,3,4]` accepts
the message at the head (`[1,2]`), then finds junk + an incomplete candidate +
a valid candidate in `[7,3,4]` and defers — it returns `XRV_OK` with one
message accepted, yet the retry counter is 1, not 0. -/
theorem claim_C5_counterexample :
    processNewData (⟨some cx5Pm, 0, []⟩ : MessageExtractor Nat) [1, 2, 7, 3, 4] [] =
      some ⟨⟨some cx5Pm, 1, [7, 3, 4]⟩, [100], XsResultValue.XRV_OK⟩ ∧
    ([100] : List Nat) ≠ [] ∧ (1 : Nat) ≠ 0 := ⟨rfl, by simp, by omega⟩

/-- Witness for the amended C5: a call that accepts one message and stops
cleanly ends with the counter in {0, 1}. -/
theorem claim_C5_counter_reset_witness :
    (0 : Nat) = 0 ∨ (0 : Nat) = 1 :=
  claim_C5_counter_reset (⟨some cx7Pm, 0, []⟩ : MessageExtractor Nat) cx7Pm [33, 34] []
    ⟨⟨some cx7Pm, 0, []⟩, [1], XsResultValue.XRV_OK⟩ rfl rfl (by simp)

/-- Claim C8 (code bug evidence): with no protocol manager bound, the call
returns `XRV_ERROR` before ever clearing the caller's `messages` container —
the prior contents `[42]` survive, contradicting both the claim and the
function's own doc comment ("This vector will be cleared upon function
entry", messageextractor.cpp line 59). -/
theorem claim_C8_unbound_manager_keeps_prior :
    processNewData (⟨none, 0, []⟩ : MessageExtractor Nat) [7] [42] =
      some ⟨⟨none, 0, []⟩, [42], XsResultValue.XRV_ERROR⟩ := rfl

/-- Claim C6 (amended): every call to `processNewData` with a bound,
well-behaved locator (each validated candidate lies inside the queried window
and has positive size) returns: each loop iteration either returns or
strictly advances the consumed offset, which is bounded by the buffer length.
The claim's unrestricted quantification over locator responses ("any reported
size and startOffset") is refuted by `claim_C6_counterexample`. -/
theorem claim_C6_termination {Msg : Type} (e : MessageExtractor Msg)
    (pm : IProtocolManager Msg) (newData : List Nat) (prior : List Msg)
    (hpm : e.m_protocolManager = some pm) (hwb : WellBehavedLocator pm) :
    (processNewData e newData prior).isSome := by
  obtain ⟨pmo, rt, buf⟩ := e
  simp only at hpm
  subst hpm
  simp only [processNewData]
  have h := processLoop_isSome_of_wellBehaved pm hwb
    ((if newData ≠ [] then buf ++ newData else buf).length + 1)
    (if newData ≠ [] then buf ++ newData else buf) 0 rt []
    le_rfl (by omega) (by push_cast; omega)
  rcases hl : processLoop pm ((if newData ≠ [] then buf ++ newData else buf).length + 1)
      (if newData ≠ [] then buf ++ newData else buf) 0 rt [] with _ | ⟨b, rt', ms, st⟩
  · rw [hl] at h
    simp at h
  · simp

/-- Counterexample to C6 as stated: with a locator that always reports a
validated candidate of size 0 at offset 0, the scan loop never advances and
never returns — no amount of fuel makes it terminate. -/
theorem claim_C6_counterexample :
    processNewData (⟨some sizeZeroPm, 0, [1]⟩ : MessageExtractor Nat) [] [] = none ∧
    ¬ LoopTerminates sizeZeroPm [1] 0 0 [] := by
  constructor
  · rfl
  · rintro ⟨fuel, hf⟩
    rw [sizeZeroPm_loop_none fuel [1] 0 0 []] at hf
    simp at hf

/-- Witness for the amended C6 at a concrete well-behaved locator. -/
theorem claim_C6_termination_witness :
    (processNewData (⟨some neverFindPm, 0, [1, 2, 3]⟩ : MessageExtractor Nat) [4] []).isSome :=
  claim_C6_termination (⟨some neverFindPm, 0, [1, 2, 3]⟩ : MessageExtractor Nat)
    neverFindPm [4] [] rfl neverFindPm_wellBehaved

/-- Claim C1: retry bound across consecutive calls.  The extractor starts with
a zero counter and buffer `B`; the locator reports a validated candidate with
`m_startPos > 0`, an incomplete candidate at non-negative `m_incompletePos`
satisfying the contract `m_incompletePos < m_startPos`; after the first
deferral drops the junk, the locator keeps reporting the same candidate on
the shrunken buffer `B2` (offsets shifted by the dropped junk, incomplete
candidate now at offset 0, candidate fully inside the buffer), no new data
arrives and the incomplete candidate never completes.  Then: the first call
defers, dropping only the junk before the incomplete candidate, and returns
`XRV_TIMEOUTNODATA` with the counter at 1; every call entered with counter
`k` (`1 ≤ k < 5`) defers, leaves the buffer untouched, returns
`XRV_TIMEOUTNODATA` and increments the counter to `k + 1` — so calls 2..5
take it through 2,3,4,5 and never discard the candidate; the call entered
with the counter at the maximum (call 6) discards the whole region including
the incomplete candidate (`m_size + m_startPos` bytes), accepts the valid
candidate and returns it with the counter reset to 0.  The incomplete
candidate is thus discarded on call 6 exactly — never earlier, never
deferred beyond it. -/
theorem claim_C1_retry_bound {Msg : Type} (pm : IProtocolManager Msg)
    (B B2 : List Nat) (loc1 loc2 loc3 : MessageLocation) (m1 m2 m3 : Msg)
    (prior : List Msg)
    (hfm1 : pm.findMessage B = (loc1, m1))
    (hv1 : pm.locIsValid loc1 = true) (hm1 : pm.validateMessage m1 = true)
    (hs1 : 0 < loc1.m_startPos) (hi1 : 0 ≤ loc1.m_incompletePos)
    (hc1 : loc1.m_incompletePos < loc1.m_startPos)
    (hB2 : B2 = B.drop loc1.m_incompletePos.toNat)
    (hfm2 : pm.findMessage B2 = (loc2, m2))
    (hv2 : pm.locIsValid loc2 = true) (hm2 : pm.validateMessage m2 = true)
    (hsameS : loc2.m_startPos = loc1.m_startPos - loc1.m_incompletePos)
    (_hsameZ : loc2.m_size = loc1.m_size)
    (hi2 : loc2.m_incompletePos = 0)
    (hz2 : 0 ≤ loc2.m_size)
    (hin2 : loc2.m_startPos + loc2.m_size ≤ (B2.length : Int))
    (hfm3 : pm.findMessage (B2.drop (loc2.m_size + loc2.m_startPos).toNat) = (loc3, m3))
    (hv3 : (pm.locIsValid loc3 && pm.validateMessage m3) = false) :
    processNewData (⟨some pm, 0, B⟩ : MessageExtractor Msg) [] prior =
      some ⟨⟨some pm, 1, B2⟩, [], XsResultValue.XRV_TIMEOUTNODATA⟩ ∧
    (∀ k : Nat, 1 ≤ k → k < m_maxIncompleteRetryCount →
      processNewData (⟨some pm, k, B2⟩ : MessageExtractor Msg) [] prior =
        some ⟨⟨some pm, k + 1, B2⟩, [], XsResultValue.XRV_TIMEOUTNODATA⟩) ∧
    processNewData (⟨some pm, m_maxIncompleteRetryCount, B2⟩ : MessageExtractor Msg)
        [] prior =
      some ⟨⟨some pm, 0, B2.drop (loc2.m_size + loc2.m_startPos).toNat⟩, [m2],
        XsResultValue.XRV_OK⟩ := by
  have hs2 : 0 < loc2.m_startPos := by omega
  refine ⟨?_, ?_, ?_⟩
  · have hfm1' : pm.findMessage (B.drop ((0 : Int)).toNat) = (loc1, m1) := by
      simpa using hfm1
    have hstep1 := processLoop_defer pm B.length B 0 0 [] loc1 m1 hfm1' hv1 hm1 hs1
      (by omega) (by norm_num [m_maxIncompleteRetryCount])
    rw [processNewData_nil_chunk pm 0 B prior _ _ _ _ hstep1]
    have hbuf1 : retvalBuffer B
        (if 0 < loc1.m_incompletePos then (0 : Int) + loc1.m_incompletePos else 0) =
        B2 := by
      by_cases hpos : 0 < loc1.m_incompletePos
      · rw [if_pos hpos, retvalBuffer, if_pos (by omega), hB2]
        congr 1
        omega
      · have hi0 : loc1.m_incompletePos = 0 := by omega
        rw [if_neg hpos, retvalBuffer, if_neg (by omega), hB2, hi0]
        simp
    rw [hbuf1]
    simp [retvalStatus]
  · intro k hk1 hk5
    have hfm2' : pm.findMessage (B2.drop ((0 : Int)).toNat) = (loc2, m2) := by
      simpa using hfm2
    have hstep := processLoop_defer pm B2.length B2 0 k [] loc2 m2 hfm2' hv2 hm2 hs2
      (by rw [hi2]; norm_num) hk5
    rw [processNewData_nil_chunk pm k B2 prior _ _ _ _ hstep]
    have hbuf2 : retvalBuffer B2
        (if 0 < loc2.m_incompletePos then (0 : Int) + loc2.m_incompletePos else 0) =
        B2 := by
      rw [hi2]
      simp [retvalBuffer]
    rw [hbuf2]
    simp [retvalStatus]
  · have hlenB2 : 1 ≤ B2.length := by omega
    obtain ⟨n, hn⟩ : ∃ n, B2.length = n + 1 := ⟨B2.length - 1, by omega⟩
    have hfm2' : pm.findMessage (B2.drop ((0 : Int)).toNat) = (loc2, m2) := by
      simpa using hfm2
    have hacc := processLoop_accept pm B2.length B2 0 m_maxIncompleteRetryCount []
      loc2 m2 hfm2' hv2 hm2 (fun hcon => absurd hcon.2.2 (lt_irrefl _))
    have hfm3' : pm.findMessage
        (B2.drop ((0 : Int) + (loc2.m_size + loc2.m_startPos)).toNat) = (loc3, m3) := by
      simpa using hfm3
    have hexit := processLoop_exit pm n B2 (0 + (loc2.m_size + loc2.m_startPos)) 0
      ([] ++ [m2]) loc3 m3 hfm3' hv3
    have hloop : processLoop pm (B2.length + 1) B2 0 m_maxIncompleteRetryCount [] =
        some (retvalBuffer B2 ((0 : Int) + (loc2.m_size + loc2.m_startPos)), 0,
          [] ++ [m2], retvalStatus ([] ++ [m2])) := by
      rw [hacc, hn]
      exact hexit
    rw [processNewData_nil_chunk pm m_maxIncompleteRetryCount B2 prior _ _ _ _ hloop]
    have hbuf3 : retvalBuffer B2 ((0 : Int) + (loc2.m_size + loc2.m_startPos)) =
        B2.drop (loc2.m_size + loc2.m_startPos).toNat := by
      rw [retvalBuffer, if_pos (by omega)]
      congr 1
      omega
    rw [hbuf3]
    simp [retvalStatus]

/-- Witness for C1 with the scenario locator `c1Pm`: the first call defers
dropping the junk `[9,9]` (counter 0 to 1), a middle call (counter 3) defers
leaving the buffer untouched (counter to 4), and the call with the counter at
the maximum accepts the candidate, discards its whole region and resets the
counter to 0. -/
theorem claim_C1_retry_bound_witness :
    (processNewData (⟨some c1Pm, 0, [9, 9, 250, 7, 250, 8, 8]⟩ : MessageExtractor Nat)
        [] [] =
      some ⟨⟨some c1Pm, 1, [250, 7, 250, 8, 8]⟩, [], XsResultValue.XRV_TIMEOUTNODATA⟩) ∧
    (processNewData (⟨some c1Pm, 3, [250, 7, 250, 8, 8]⟩ : MessageExtractor Nat) [] [] =
      some ⟨⟨some c1Pm, 3 + 1, [250, 7, 250, 8, 8]⟩, [], XsResultValue.XRV_TIMEOUTNODATA⟩) ∧
    (processNewData (⟨some c1Pm, m_maxIncompleteRetryCount, [250, 7, 250, 8, 8]⟩ :
        MessageExtractor Nat) [] [] =
      some ⟨⟨some c1Pm, 0, [250, 7, 250, 8, 8].drop (((3 : Int) + 2)).toNat⟩, [2],
        XsResultValue.XRV_OK⟩) := by
  have h := claim_C1_retry_bound c1Pm [9, 9, 250, 7, 250, 8, 8] [250, 7, 250, 8, 8]
    ⟨4, 2, 3⟩ ⟨2, 0, 3⟩ ⟨-1, -1, 0⟩ 1 2 0 []
    (by decide) (by decide) (by decide) (by decide) (by decide) (by decide)
    (by decide) (by decide) (by decide) (by decide) (by decide) (by decide)
    (by decide) (by decide) (by decide) (by decide) (by decide)
  exact ⟨h.1, h.2.1 3 (by norm_num) (by norm_num [m_maxIncompleteRetryCount]), h.2.2⟩
